import Mathlib

/-!
Shallow embedding of the interaction engine in src/main.go (package main of
bluemediaapp/interactions): the like/watch event recording, the duplicate
guards backed by CountDocuments with limit 1, the per-tag interest loops of
likeVideo and watchVideo, and modifyInterests with its swallowed update error.

Go map values (map[string]int64) are embedded as functions String to
Option Int; the document store is an explicit Store record holding the four
collections; fallible store calls are driven by a Faults record saying which
call fails, so that every error path of the source is a reachable branch.
Int64 arithmetic is modelled on unbounded Int: the only arithmetic the code
performs on counters is an increment guarded by likes < MaxInt64 - 1, which
never overflows, so the model is exact on in-range inputs.
-/

namespace Interactions

/-- Embedding of the Go map type map[string]int64: a tag is present with a
score, or absent. -/
def InterestMap : Type := String → Option Int

/-- Row of the liked_videos or watched_videos collection: the models
DatabaseLikeEvent and DatabaseWatchEvent both carry {VideoId, UserId}. -/
structure Event where
  videoId : Int
  userId : Int
deriving DecidableEq

/-- The fields of models.DatabaseUser the engine reads or writes. -/
structure DbUser where
  id : Int
  interests : InterestMap

/-- The fields of models.DatabaseVideo the engine reads or writes. -/
structure DbVideo where
  id : Int
  tags : List String
  likes : Int

/-- The four collections set up by initDb. -/
structure Store where
  videos : Int → Option DbVideo
  users : Int → Option DbUser
  likedEvents : List Event
  watchedEvents : List Event

/-- Failure oracle: which store call fails during one engine operation. -/
structure Faults where
  insertLikeFails : Bool
  insertWatchFails : Bool
  updateUserFails : Bool
  incLikesFails : Bool
  countLikedFails : Bool
  countWatchedFails : Bool

/-- The run in which every store call succeeds. -/
def noFaults : Faults := ⟨false, false, false, false, false, false⟩

/-- math.MaxInt64 of the Go source. -/
def maxInt64 : Int := 2 ^ 63 - 1

/-- Filter used by hasLiked and hasWatched: bson.D{{user_id, userId},
{video_id, videoId}}. -/
def eventMatches (uid vid : Int) (e : Event) : Bool :=
  e.userId == uid && e.videoId == vid

/-- CountDocuments with that filter and CountOptions{Limit: 1}: the number of
matching rows, capped at the limit 1. -/
def countDocumentsLimit1 (events : List Event) (uid vid : Int) : Int :=
  min ((events.filter (eventMatches uid vid)).length : Int) 1

/-- hasLiked of src/main.go: on a count error, log and return true; otherwise
return documentCount == int64(1). -/
def hasLiked (f : Faults) (s : Store) (userId videoId : Int) : Bool :=
  if f.countLikedFails then true
  else countDocumentsLimit1 s.likedEvents userId videoId == 1

/-- hasWatched of src/main.go: on a count error, log and return true; otherwise
return documentCount == int64(1). -/
def hasWatched (f : Faults) (s : Store) (userId videoId : Int) : Bool :=
  if f.countWatchedFails then true
  else countDocumentsLimit1 s.watchedEvents userId videoId == 1

/-- One iteration of the tag loop in likeVideo and watchVideo: read the
current value of the USER map (defaulting a missing tag to 0), add the
weight, and store the result in the fresh interests map under the tag. -/
def interestsLoopStep (userInterests : InterestMap) (weight : Int)
    (m : InterestMap) (tag : String) : InterestMap :=
  fun t => if t = tag then some ((userInterests tag).getD 0 + weight) else m t

/-- The whole tag loop of likeVideo (weight 11) and watchVideo (weight -1):
starting from the empty map made by make(map[string]int64), iterate
interestsLoopStep over video.Tags in order. The user map is only read, never
written, inside this loop. -/
def interestsLoop (userInterests : InterestMap) (weight : Int)
    (tags : List String) : InterestMap :=
  tags.foldl (interestsLoopStep userInterests weight) (fun _ => none)

/-- The merge loop of modifyInterests, pointwise: each key present in the
interests argument (a Go map, so each key occurs exactly once in the range
loop) is set to the current user value (default 0) plus the passed value;
every other key of the user map is untouched. Since distinct iterations touch
distinct keys, the loop is exactly this pointwise update, in any range order. -/
def mergeInterests (userInterests : InterestMap) (deltas : InterestMap) :
    InterestMap :=
  fun t => match deltas t with
    | some v => some ((userInterests t).getD 0 + v)
    | none => userInterests t

/-- UpdateOne on the users collection with filter {_id: uid} and update
{$set: {interests: m}}: a matching document gets its interests field replaced
wholesale; no matching document means no change. -/
def setUserInterests (users : Int → Option DbUser) (uid : Int)
    (m : InterestMap) : Int → Option DbUser :=
  fun i => if i = uid then (users i).map (fun du => { du with interests := m })
  else users i

/-- modifyInterests of src/main.go: merge the interests argument into the
in-memory user map (the Go map is shared by reference with the caller), then
persist the whole mutated map with one $set update; an update error is logged
and swallowed, so the function returns nothing either way. The returned
DbUser is the caller view of the mutated user value. -/
def modifyInterests (f : Faults) (s : Store) (user : DbUser)
    (deltas : InterestMap) : DbUser × Store :=
  let user2 := { user with interests := mergeInterests user.interests deltas }
  if f.updateUserFails then (user2, s)
  else (user2, { s with users := setUserInterests s.users user.id user2.interests })

/-- UpdateOne on the videos collection with filter {_id: vid} and update
{$inc: {likes: 1}}. -/
def incVideoLikes (videos : Int → Option DbVideo) (vid : Int) :
    Int → Option DbVideo :=
  fun i => if i = vid then (videos i).map (fun v => { v with likes := v.likes + 1 })
  else videos i

/-- likeVideo of src/main.go: (1) InsertOne of the LikeEvent, aborting on
error; (2) build the interests map with weight 11 over video.Tags and call
modifyInterests; (3) if video.Likes >= MaxInt64 - 1, log and return err,
which at that point is the nil error of the successful insert; otherwise
$inc the like counter, propagating an UpdateOne error; then return nil. -/
def likeVideo (f : Faults) (s : Store) (user : DbUser) (video : DbVideo) :
    Except String Unit × DbUser × Store :=
  if f.insertLikeFails then (Except.error "insert one failed", user, s)
  else
    let s1 : Store := { s with likedEvents := s.likedEvents ++ [⟨video.id, user.id⟩] }
    let r := modifyInterests f s1 user (interestsLoop user.interests 11 video.tags)
    if maxInt64 - 1 ≤ video.likes then (Except.ok (), r.1, r.2)
    else if f.incLikesFails then (Except.error "update one failed", r.1, r.2)
    else (Except.ok (), r.1, { r.2 with videos := incVideoLikes r.2.videos video.id })

/-- watchVideo of src/main.go: (1) InsertOne of the WatchEvent, aborting on
error; (2) build the interests map with weight -1 over video.Tags and call
modifyInterests; then return nil. There is no counter update at all. -/
def watchVideo (f : Faults) (s : Store) (user : DbUser) (video : DbVideo) :
    Except String Unit × DbUser × Store :=
  if f.insertWatchFails then (Except.error "insert one failed", user, s)
  else
    let s1 : Store := { s with watchedEvents := s.watchedEvents ++ [⟨video.id, user.id⟩] }
    let r := modifyInterests f s1 user (interestsLoop user.interests (-1) video.tags)
    (Except.ok (), r.1, r.2)

/-!
Helper lemmas shared by the claim theorems.
-/

/-- Pointwise additivity of a single merge, phrased through the default 0 of a
missing tag. -/
theorem mergeInterests_getD (ui deltas : InterestMap) (t : String) :
    ((mergeInterests ui deltas) t).getD 0 = (ui t).getD 0 + (deltas t).getD 0 := by
  unfold mergeInterests
  cases h : deltas t <;> simp [h]

/-- A fold of merges adds up the per-tag contributions of all delta maps. -/
theorem foldl_mergeInterests_getD (ds : List InterestMap) (ui : InterestMap)
    (t : String) :
    ((ds.foldl mergeInterests ui) t).getD 0
      = (ui t).getD 0 + (ds.map (fun dm => (dm t).getD 0)).sum := by
  induction ds generalizing ui with
  | nil => simp
  | cons dm ds ih =>
    rw [List.foldl_cons, List.map_cons, List.sum_cons, ih, mergeInterests_getD]
    ring

/-- The tag loop writes, under each tag of the list, the user value of that
tag (default 0) plus the weight; a tag outside the list is absent. The value
does not depend on how often the tag occurs: a repeated tag overwrites the
entry with the same value. -/
theorem interestsLoop_apply (ui : InterestMap) (w : Int) (tags : List String)
    (t : String) :
    interestsLoop ui w tags t
      = if t ∈ tags then some ((ui t).getD 0 + w) else none := by
  have go : ∀ (l : List String) (acc : InterestMap),
      (l.foldl (interestsLoopStep ui w) acc) t
        = if t ∈ l then some ((ui t).getD 0 + w) else acc t := by
    intro l
    induction l with
    | nil => intro acc; simp
    | cons a l ih =>
      intro acc
      rw [List.foldl_cons, ih]
      by_cases hl : t ∈ l
      · simp [hl]
      · by_cases ha : t = a
        · subst ha
          simp [hl, interestsLoopStep]
        · simp [hl, ha, interestsLoopStep]
  exact go tags _

/-- The first component of modifyInterests, the mutated in-memory user, does
not depend on whether the persist step fails. -/
theorem modifyInterests_fst (f : Faults) (s : Store) (user : DbUser)
    (deltas : InterestMap) :
    (modifyInterests f s user deltas).1
      = { user with interests := mergeInterests user.interests deltas } := by
  unfold modifyInterests
  by_cases h : f.updateUserFails <;> simp [h]

/-- modifyInterests never touches the videos collection. -/
theorem modifyInterests_videos (f : Faults) (s : Store) (user : DbUser)
    (deltas : InterestMap) :
    (modifyInterests f s user deltas).2.videos = s.videos := by
  unfold modifyInterests
  by_cases h : f.updateUserFails <;> simp [h]

/-- modifyInterests never touches the liked_videos collection. -/
theorem modifyInterests_likedEvents (f : Faults) (s : Store) (user : DbUser)
    (deltas : InterestMap) :
    (modifyInterests f s user deltas).2.likedEvents = s.likedEvents := by
  unfold modifyInterests
  by_cases h : f.updateUserFails <;> simp [h]

/-- modifyInterests never touches the watched_videos collection. -/
theorem modifyInterests_watchedEvents (f : Faults) (s : Store) (user : DbUser)
    (deltas : InterestMap) :
    (modifyInterests f s user deltas).2.watchedEvents = s.watchedEvents := by
  unfold modifyInterests
  by_cases h : f.updateUserFails <;> simp [h]

/-- When the persist step succeeds, the stored document of the passed user id
gets its interests field replaced by the mutated in-memory map. -/
theorem modifyInterests_users (f : Faults) (s : Store) (user du : DbUser)
    (deltas : InterestMap) (hf : f.updateUserFails = false)
    (hdu : s.users user.id = some du) :
    (modifyInterests f s user deltas).2.users user.id
      = some { du with interests := mergeInterests user.interests deltas } := by
  unfold modifyInterests
  simp [hf, setUserInterests, hdu]

/-- The capped count equals 1 exactly when some row matches both ids. -/
theorem countDocumentsLimit1_eq_one (events : List Event) (uid vid : Int) :
    countDocumentsLimit1 events uid vid = 1
      ↔ ∃ e ∈ events, e.userId = uid ∧ e.videoId = vid := by
  unfold countDocumentsLimit1
  constructor
  · intro h
    have hlen : (events.filter (eventMatches uid vid)).length ≠ 0 := by
      intro h0
      rw [h0] at h
      simp at h
    obtain ⟨e, he⟩ := List.exists_mem_of_length_pos (Nat.pos_of_ne_zero hlen)
    have := List.mem_filter.mp he
    refine ⟨e, this.1, ?_⟩
    have hm := this.2
    unfold eventMatches at hm
    simp at hm
    exact hm
  · intro ⟨e, hmem, hu, hv⟩
    have : e ∈ events.filter (eventMatches uid vid) := by
      apply List.mem_filter.mpr
      refine ⟨hmem, ?_⟩
      unfold eventMatches
      simp [hu, hv]
    have hpos : 0 < (events.filter (eventMatches uid vid)).length :=
      List.length_pos_of_mem this
    omega

/-!
Concrete sample values used by the evaluation theorems and witnesses.
-/

/-- A user whose stored score for the tag cats is 11, as produced by one like
of a cats-tagged video starting from an empty interest map. -/
def uSample : DbUser := ⟨1, fun t => if t = "cats" then some 11 else none⟩

/-- A freshly uploaded video tagged cats. -/
def vSample : DbVideo := ⟨2, ["cats"], 0⟩

/-- A video whose like counter sits at the saturation threshold. -/
def vSat : DbVideo := ⟨3, ["cats"], maxInt64 - 1⟩

/-- A store holding uSample and no event rows. -/
def sSample : Store := ⟨fun _ => none, fun _ => some uSample, [], []⟩

/-- A run in which both event inserts fail. -/
def faultsInsert : Faults :=
  { noFaults with insertLikeFails := true, insertWatchFails := true }

/-- A run in which both duplicate-guard count queries fail. -/
def faultsCount : Faults :=
  { noFaults with countLikedFails := true, countWatchedFails := true }

/-- A run in which only the like-counter increment fails. -/
def faultsInc : Faults := { noFaults with incLikesFails := true }

/-!
Claim theorems.
-/

/-- Claim C1 (code bug): evaluation of the code at the failing input. The
user uSample holds stored score 11 for cats; watching one video tagged cats
ends, in the fault-free run, with in-memory and persisted score 21, not the
10 the claim requires: the tag loop computes the absolute value 11 - 1 = 10
and modifyInterests then adds that on top of the stored 11. -/
theorem c1_watch_double_counts :
    (watchVideo noFaults sSample uSample vSample).2.1.interests "cats" = some 21
      ∧ ((watchVideo noFaults sSample uSample vSample).2.2.users 1).map
          (fun du => du.interests "cats") = some (some 21)
      ∧ (watchVideo noFaults sSample uSample vSample).2.1.interests "cats" ≠ some 10 := by
  refine ⟨rfl, rfl, ?_⟩
  decide

/-- Claim C2, counterexample: a tag occurring twice in one tag list with
weight 11 and an empty user map yields the computed value 11, not the 22 the
claim requires: occurrences overwrite instead of accumulating. -/
theorem c2_duplicates_counterexample :
    interestsLoop (fun _ => none) 11 ["cats", "cats"] "cats" = some 11
      ∧ interestsLoop (fun _ => none) 11 ["cats", "cats"] "cats" ≠ some 22 := by
  constructor
  · rfl
  · decide

/-- Claim C2, amended: the per-tag computation assigns to each tag occurring
in the list, regardless of its number of occurrences, the current user score
for that tag (default 0) plus the weight, and assigns nothing to tags outside
the list. -/
theorem c2_amended (ui : InterestMap) (w : Int) (tags : List String)
    (t : String) :
    interestsLoop ui w tags t
      = if t ∈ tags then some ((ui t).getD 0 + w) else none :=
  interestsLoop_apply ui w tags t

/-- Claim C3, counterexample: in a run where only the like-counter UpdateOne
fails, on an unsaturated video, likeVideo propagates that error to the caller
instead of absorbing it, so the claim that only a failing LikeEvent insert can
make Like fail is false. -/
theorem c3_counter_failure_propagates :
    faultsInc.insertLikeFails = false
      ∧ (likeVideo faultsInc sSample uSample vSample).1
          = Except.error "update one failed" := by
  constructor
  · rfl
  · rfl

/-- Claim C3, amended: likeVideo returns success exactly when the LikeEvent
insert succeeds and, on a video below the saturation threshold, the counter
increment also succeeds (an increment error is propagated); failures of the
interest merge never affect the result. -/
theorem c3_amended (f : Faults) (s : Store) (u : DbUser) (v : DbVideo) :
    (likeVideo f s u v).1 = Except.ok ()
      ↔ (f.insertLikeFails = false
          ∧ (maxInt64 - 1 ≤ v.likes ∨ f.incLikesFails = false)) := by
  unfold likeVideo
  by_cases h1 : f.insertLikeFails
  · simp [h1]
  · by_cases h2 : maxInt64 - 1 ≤ v.likes
    · simp [h1, h2]
    · by_cases h3 : f.incLikesFails <;> simp [h1, h2, h3]

/-- Claim C4: liking a video whose counter sits at the saturation threshold
MaxInt64 - 1 still returns success, leaves the videos collection unchanged
(the increment is skipped), still appends the LikeEvent row, and still merges
the computed interest values into the user. -/
theorem c4_saturated_like (f : Faults) (s : Store) (u : DbUser) (v : DbVideo)
    (hins : f.insertLikeFails = false) (hsat : v.likes = maxInt64 - 1) :
    (likeVideo f s u v).1 = Except.ok ()
      ∧ (likeVideo f s u v).2.2.videos = s.videos
      ∧ (likeVideo f s u v).2.2.likedEvents = s.likedEvents ++ [⟨v.id, u.id⟩]
      ∧ (likeVideo f s u v).2.1.interests
          = mergeInterests u.interests (interestsLoop u.interests 11 v.tags) := by
  have hle : maxInt64 - 1 ≤ v.likes := le_of_eq hsat.symm
  unfold likeVideo
  simp [hins, hle, modifyInterests_fst, modifyInterests_videos,
    modifyInterests_likedEvents]

/-- Claim C4 witness at a concrete saturated video. -/
theorem c4_witness :
    noFaults.insertLikeFails = false ∧ vSat.likes = maxInt64 - 1
      ∧ ((likeVideo noFaults sSample uSample vSat).1 = Except.ok ()
        ∧ (likeVideo noFaults sSample uSample vSat).2.2.videos = sSample.videos
        ∧ (likeVideo noFaults sSample uSample vSat).2.2.likedEvents
            = sSample.likedEvents ++ [⟨vSat.id, uSample.id⟩]
        ∧ (likeVideo noFaults sSample uSample vSat).2.1.interests
            = mergeInterests uSample.interests
                (interestsLoop uSample.interests 11 vSat.tags)) :=
  ⟨rfl, rfl, c4_saturated_like noFaults sSample uSample vSat rfl rfl⟩

/-- Claim C5: when its count query fails, each duplicate guard fails safe:
hasLiked and hasWatched return true, and since both return a plain boolean no
error reaches the caller. -/
theorem c5_guard_fail_safe (f : Faults) (s : Store) (uid vid : Int)
    (hl : f.countLikedFails = true) (hw : f.countWatchedFails = true) :
    hasLiked f s uid vid = true ∧ hasWatched f s uid vid = true := by
  simp [hasLiked, hasWatched, hl, hw]

/-- Claim C5 witness at a concrete failing run. -/
theorem c5_witness :
    faultsCount.countLikedFails = true ∧ faultsCount.countWatchedFails = true
      ∧ (hasLiked faultsCount sSample 1 2 = true
        ∧ hasWatched faultsCount sSample 1 2 = true) :=
  ⟨rfl, rfl, c5_guard_fail_safe faultsCount sSample 1 2 rfl rfl⟩

/-- Claim C6: a failing event insert aborts likeVideo and watchVideo: the
error is propagated, the in-memory user is not mutated, and the whole store,
including the user document and every counter, is left unchanged. -/
theorem c6_insert_failure_aborts (f : Faults) (s : Store) (u : DbUser)
    (v : DbVideo) (hl : f.insertLikeFails = true)
    (hw : f.insertWatchFails = true) :
    likeVideo f s u v = (Except.error "insert one failed", u, s)
      ∧ watchVideo f s u v = (Except.error "insert one failed", u, s) := by
  simp [likeVideo, watchVideo, hl, hw]

/-- Claim C6 witness at a concrete failing run. -/
theorem c6_witness :
    faultsInsert.insertLikeFails = true ∧ faultsInsert.insertWatchFails = true
      ∧ (likeVideo faultsInsert sSample uSample vSample
          = (Except.error "insert one failed", uSample, sSample)
        ∧ watchVideo faultsInsert sSample uSample vSample
          = (Except.error "insert one failed", uSample, sSample)) :=
  ⟨rfl, rfl, c6_insert_failure_aborts faultsInsert sSample uSample vSample rfl rfl⟩

/-- hasLiked, on a successful count, decides existence of a matching row. -/
theorem hasLiked_iff (f : Faults) (s : Store) (uid vid : Int)
    (hl : f.countLikedFails = false) :
    hasLiked f s uid vid = true
      ↔ ∃ e ∈ s.likedEvents, e.userId = uid ∧ e.videoId = vid := by
  unfold hasLiked
  rw [if_neg (by simp [hl]), beq_iff_eq]
  exact countDocumentsLimit1_eq_one s.likedEvents uid vid

/-- hasWatched, on a successful count, decides existence of a matching row. -/
theorem hasWatched_iff (f : Faults) (s : Store) (uid vid : Int)
    (hw : f.countWatchedFails = false) :
    hasWatched f s uid vid = true
      ↔ ∃ e ∈ s.watchedEvents, e.userId = uid ∧ e.videoId = vid := by
  unfold hasWatched
  rw [if_neg (by simp [hw]), beq_iff_eq]
  exact countDocumentsLimit1_eq_one s.watchedEvents uid vid

/-- Claim C7: the merge of modifyInterests is additive: one merge adds the
delta to the stored score (default 0), two merges add d1 then d2, a fold of N
merges adds the sum of all per-tag deltas, the result is invariant under
permuting the merge order, and under a successful persist the stored user
document carries exactly the merged map. -/
theorem c7_merge_additive (f : Faults) (s : Store) (user du : DbUser)
    (ui deltas d1 d2 : InterestMap) (ds dsP : List InterestMap) (t : String)
    (hperm : ds.Perm dsP) (hf : f.updateUserFails = false)
    (hdu : s.users user.id = some du) :
    ((mergeInterests ui deltas) t).getD 0 = (ui t).getD 0 + (deltas t).getD 0
      ∧ ((mergeInterests (mergeInterests ui d1) d2) t).getD 0
          = (ui t).getD 0 + ((d1 t).getD 0 + (d2 t).getD 0)
      ∧ ((ds.foldl mergeInterests ui) t).getD 0
          = (ui t).getD 0 + (ds.map (fun dm => (dm t).getD 0)).sum
      ∧ ((dsP.foldl mergeInterests ui) t).getD 0
          = ((ds.foldl mergeInterests ui) t).getD 0
      ∧ (modifyInterests f s user deltas).2.users user.id
          = some { du with interests := mergeInterests user.interests deltas } := by
  refine ⟨mergeInterests_getD ui deltas t, ?_, foldl_mergeInterests_getD ds ui t,
    ?_, modifyInterests_users f s user du deltas hf hdu⟩
  · rw [mergeInterests_getD, mergeInterests_getD]
    ring
  · rw [foldl_mergeInterests_getD, foldl_mergeInterests_getD,
      List.Perm.sum_eq (hperm.map (fun dm => (dm t).getD 0))]

/-- A concrete delta map assigning 1 to every tag, used by witnesses. -/
def dmSample : InterestMap := fun _ => some 1

/-- Claim C7 witness at concrete maps and a singleton merge list. -/
theorem c7_witness :
    [dmSample].Perm [dmSample] ∧ noFaults.updateUserFails = false
      ∧ sSample.users uSample.id = some uSample
      ∧ (((mergeInterests uSample.interests dmSample) "cats").getD 0
            = ((uSample.interests "cats").getD 0 + ((dmSample "cats").getD 0))
        ∧ ((mergeInterests (mergeInterests uSample.interests dmSample) dmSample) "cats").getD 0
            = (uSample.interests "cats").getD 0
              + (((dmSample "cats").getD 0) + ((dmSample "cats").getD 0))
        ∧ (([dmSample].foldl mergeInterests uSample.interests) "cats").getD 0
            = (uSample.interests "cats").getD 0
              + (([dmSample].map (fun dm => (dm "cats").getD 0)).sum)
        ∧ (([dmSample].foldl mergeInterests uSample.interests) "cats").getD 0
            = (([dmSample].foldl mergeInterests uSample.interests) "cats").getD 0
        ∧ (modifyInterests noFaults sSample uSample dmSample).2.users uSample.id
            = some { uSample with
                interests := mergeInterests uSample.interests dmSample }) :=
  ⟨List.Perm.refl [dmSample], rfl, rfl,
    c7_merge_additive noFaults sSample uSample uSample uSample.interests
      dmSample dmSample dmSample [dmSample] [dmSample] "cats"
      (List.Perm.refl [dmSample]) rfl rfl⟩

/-- Claim C8: on a successful count query, each guard returns true exactly
when a row matching both identifiers exists: false on a pair with no row, and
true for the pair just written by a successful watch. -/
theorem c8_guard_reads (f : Faults) (s : Store) (uid vid : Int) (u : DbUser)
    (v : DbVideo) (hl : f.countLikedFails = false)
    (hw : f.countWatchedFails = false) (hwi : f.insertWatchFails = false) :
    (hasLiked f s uid vid = true
        ↔ ∃ e ∈ s.likedEvents, e.userId = uid ∧ e.videoId = vid)
      ∧ (hasWatched f s uid vid = true
        ↔ ∃ e ∈ s.watchedEvents, e.userId = uid ∧ e.videoId = vid)
      ∧ hasWatched f (watchVideo f s u v).2.2 u.id v.id = true := by
  refine ⟨hasLiked_iff f s uid vid hl, hasWatched_iff f s uid vid hw, ?_⟩
  have hevents : (watchVideo f s u v).2.2.watchedEvents
      = s.watchedEvents ++ [⟨v.id, u.id⟩] := by
    unfold watchVideo
    simp [hwi, modifyInterests_watchedEvents]
  rw [hasWatched_iff f _ u.id v.id hw, hevents]
  exact ⟨⟨v.id, u.id⟩, by simp, rfl, rfl⟩

/-- Claim C8 witness at a concrete fault-free run: the empty store has no
matching rows, and the pair watched in it is reported as watched. -/
theorem c8_witness :
    noFaults.countLikedFails = false ∧ noFaults.countWatchedFails = false
      ∧ noFaults.insertWatchFails = false
      ∧ ((hasLiked noFaults sSample 1 2 = true
          ↔ ∃ e ∈ sSample.likedEvents, e.userId = 1 ∧ e.videoId = 2)
        ∧ (hasWatched noFaults sSample 1 2 = true
          ↔ ∃ e ∈ sSample.watchedEvents, e.userId = 1 ∧ e.videoId = 2)
        ∧ hasWatched noFaults (watchVideo noFaults sSample uSample vSample).2.2
            uSample.id vSample.id = true) :=
  ⟨rfl, rfl, rfl,
    c8_guard_reads noFaults sSample 1 2 uSample vSample rfl rfl rfl⟩

/-- Claim C9: watchVideo never writes to the videos collection, in every run
including failing ones, so video.Likes is untouched; on a successful insert
it appends exactly one WatchEvent row and merges the weight -1 values into
the user. -/
theorem c9_watch_frame (f : Faults) (s : Store) (u : DbUser) (v : DbVideo) :
    (watchVideo f s u v).2.2.videos = s.videos
      ∧ (f.insertWatchFails = false →
          (watchVideo f s u v).2.2.watchedEvents = s.watchedEvents ++ [⟨v.id, u.id⟩]
            ∧ (watchVideo f s u v).2.1.interests
              = mergeInterests u.interests (interestsLoop u.interests (-1) v.tags)) := by
  unfold watchVideo
  by_cases h : f.insertWatchFails
  · simp [h]
  · simp [h, modifyInterests_videos, modifyInterests_watchedEvents,
      modifyInterests_fst]

/-- Claim C9 witness at a concrete fault-free run. -/
theorem c9_witness :
    ((watchVideo noFaults sSample uSample vSample).2.2.videos = sSample.videos
      ∧ (noFaults.insertWatchFails = false →
          (watchVideo noFaults sSample uSample vSample).2.2.watchedEvents
              = sSample.watchedEvents ++ [⟨vSample.id, uSample.id⟩]
            ∧ (watchVideo noFaults sSample uSample vSample).2.1.interests
              = mergeInterests uSample.interests
                  (interestsLoop uSample.interests (-1) vSample.tags)))
      ∧ noFaults.insertWatchFails = false :=
  ⟨c9_watch_frame noFaults sSample uSample vSample, rfl⟩

/-- Claim C10: modifyInterests mutates the caller view of the user: the
returned user carries exactly the merged map, and under a successful persist
the stored document holds that same map as the full replacement value of its
interests field. -/
theorem c10_modify_in_place (f : Faults) (s : Store) (user du : DbUser)
    (deltas : InterestMap) (hf : f.updateUserFails = false)
    (hdu : s.users user.id = some du) :
    (modifyInterests f s user deltas).1.interests
        = mergeInterests user.interests deltas
      ∧ (modifyInterests f s user deltas).2.users user.id
          = some { du with
              interests := (modifyInterests f s user deltas).1.interests } := by
  have h1 : (modifyInterests f s user deltas).1.interests
      = mergeInterests user.interests deltas := by
    rw [modifyInterests_fst]
  refine ⟨h1, ?_⟩
  rw [h1]
  exact modifyInterests_users f s user du deltas hf hdu

/-- Claim C10 witness at a concrete fault-free run. -/
theorem c10_witness :
    noFaults.updateUserFails = false ∧ sSample.users uSample.id = some uSample
      ∧ ((modifyInterests noFaults sSample uSample dmSample).1.interests
            = mergeInterests uSample.interests dmSample
        ∧ (modifyInterests noFaults sSample uSample dmSample).2.users uSample.id
            = some { uSample with
                interests :=
                  (modifyInterests noFaults sSample uSample dmSample).1.interests }) :=
  ⟨rfl, rfl, c10_modify_in_place noFaults sSample uSample uSample dmSample rfl rfl⟩

end Interactions
